import Mathlib

/-!
Verification of the palette-extraction core of `src/imagecolors.cpp`
(`ImageColors::generatePalette` and its helpers) against its
natural-language specification.

The embedding below follows the C++ source line by line:

* `QRgb` colors become the `Rgb` structure (8-bit channels as `Nat`);
* `QImage` becomes `QImageModel` (width, height, per-pixel RGBA query);
* `qreal` values (cluster ratios) become `ℚ`;
* `ImageData::colorStat` and `ImageData` become structures of the same
  names, with Qt's default-constructed (invalid) `QColor` modelled as `none`;
* the single static threshold `s_minimumSquareDistance` is declared in
  `imagecolors.h`, which is not among the sources at hand, so every
  definition takes the threshold `t` as an explicit parameter, and the
  concrete evaluations instantiate a representative positive value.

Qt library functions used by the source (`qGray`, `QColor`'s HSV/HSL
conversions, `qRound`) are embedded following their documented Qt 5
implementations.
-/

/-- An RGB color with 8-bit channels, modelling the color part of `QRgb`. -/
structure Rgb where
  r : Nat
  g : Nat
  b : Nat
deriving DecidableEq, Repr

instance : Inhabited Rgb := ⟨⟨0, 0, 0⟩⟩

/-- An RGBA pixel as produced by `QImage::pixelColor`. -/
structure Rgba where
  r : Nat
  g : Nat
  b : Nat
  a : Nat
deriving DecidableEq, Repr

/-- `QColor::rgb()` of a pixel color: drop the alpha channel. -/
def Rgba.rgb (p : Rgba) : Rgb := ⟨p.r, p.g, p.b⟩

/-- Qt's `qGray(r, g, b) = (r * 11 + g * 16 + b * 5) / 32` (integer division). -/
def qGray (c : Rgb) : Nat := (c.r * 11 + c.g * 16 + c.b * 5) / 32

/-- `squareDistance` (imagecolors.cpp:180-192): channel differences are taken as
signed ints; the `(3,4,2)` weighting is used only when `qRed(color1) - qRed(color2)`
(signed, not absolute) is at least 128, otherwise the weighting is `(2,4,3)`. -/
def squareDistance (color1 color2 : Rgb) : Int :=
  let dr : Int := (color1.r : Int) - (color2.r : Int)
  let dg : Int := (color1.g : Int) - (color2.g : Int)
  let db : Int := (color1.b : Int) - (color2.b : Int)
  if dr < 128 then
    2 * dr ^ 2 + 4 * dg ^ 2 + 3 * db ^ 2
  else
    3 * dr ^ 2 + 4 * dg ^ 2 + 2 * db ^ 2

/-! ### QColor component machinery (Qt 5 `qcolor.cpp`)

`QColor` stores components as 16-bit values (`component * 0x101` when set from
8-bit); reading an 8-bit component applies `qt_div_257`.  The HSV/HSL
conversions compute on `qreal`s (modelled as `ℚ`) and round with `qRound`. -/

/-- Qt's `qt_div_257`: scale a 16-bit color component to 8 bits with rounding. -/
def div257 (x : Nat) : Nat := ((x + 128) - ((x + 128) >>> 8)) >>> 8

/-- Qt's `qRound`: round half away from zero (via `int(d ± 0.5)` truncation). -/
def qRound (q : ℚ) : Int := if 0 ≤ q then ⌊q + 1 / 2⌋ else -⌊1 / 2 - q⌋

/-- 16-bit HSV saturation stored by `QColor::toHsv`:
`qRound((delta / max) * USHRT_MAX)`, and `0` for achromatic colors. -/
def hsvSaturation16 (c : Rgb) : Nat :=
  let mx := max c.r (max c.g c.b)
  let mn := min c.r (min c.g c.b)
  if mx = mn then 0
  else (qRound (((mx : ℚ) - (mn : ℚ)) / (mx : ℚ) * 65535)).toNat

/-- 16-bit HSV value stored by `QColor::toHsv`: `qRound(max * USHRT_MAX)`
with `max` the largest channel scaled to `[0,1]`. -/
def hsvValue16 (c : Rgb) : Nat :=
  let mx := max c.r (max c.g c.b)
  (qRound ((mx : ℚ) / 255 * 65535)).toNat

/-- `QColor::saturation()` (HSV) of a valid RGB color. -/
def hsvSaturation (c : Rgb) : Nat := div257 (hsvSaturation16 c)

/-- `QColor::value()` (HSV) of a valid RGB color. -/
def hsvValue (c : Rgb) : Nat := div257 (hsvValue16 c)

/-- 16-bit hue stored by `QColor::toHsv`/`toHsl` (both use the same formula):
`USHRT_MAX` marks the achromatic case, otherwise `qRound(hue_in_degrees * 100)`. -/
def hue16 (c : Rgb) : Nat :=
  let mx := max c.r (max c.g c.b)
  let mn := min c.r (min c.g c.b)
  if mx = mn then 65535
  else
    let delta : ℚ := (mx : ℚ) - (mn : ℚ)
    let hue0 : ℚ :=
      if mx = c.r then ((c.g : ℚ) - (c.b : ℚ)) / delta
      else if mx = c.g then 2 + ((c.b : ℚ) - (c.r : ℚ)) / delta
      else 4 + ((c.r : ℚ) - (c.g : ℚ)) / delta
    let hue1 : ℚ := hue0 * 60
    let hue2 : ℚ := if hue1 < 0 then hue1 + 360 else hue1
    (qRound (hue2 * 100)).toNat

/-- 16-bit HSL lightness stored by `QColor::toHsl`:
`qRound(0.5 * (max + min) * USHRT_MAX)`. -/
def hslLightness16 (c : Rgb) : Nat :=
  let mx := max c.r (max c.g c.b)
  let mn := min c.r (min c.g c.b)
  (qRound (((mx : ℚ) + (mn : ℚ)) / 2 / 255 * 65535)).toNat

/-- 16-bit HSL saturation stored by `QColor::toHsl`. -/
def hslSaturation16 (c : Rgb) : Nat :=
  let mx := max c.r (max c.g c.b)
  let mn := min c.r (min c.g c.b)
  if mx = mn then 0
  else if ((mx : ℚ) + (mn : ℚ)) / 2 / 255 < 1 / 2 then
    (qRound (((mx : ℚ) - (mn : ℚ)) / ((mx : ℚ) + (mn : ℚ)) * 65535)).toNat
  else
    (qRound (((mx : ℚ) - (mn : ℚ)) / (2 * 255 - ((mx : ℚ) + (mn : ℚ))) * 65535)).toNat

/-- `QColor::hslHue()` of a valid RGB color: `-1` when achromatic,
otherwise the stored 16-bit hue divided by 100. -/
def hslHue (c : Rgb) : Int :=
  if hue16 c = 65535 then -1 else ((hue16 c) / 100 : Nat)

/-- `QColor::hslSaturation()` of a valid RGB color. -/
def hslSaturation (c : Rgb) : Nat := div257 (hslSaturation16 c)

/-- `QColor::lightness()` of a valid RGB color. -/
def lightness (c : Rgb) : Nat := div257 (hslLightness16 c)

/-- `QColor::setHsl(h, s, l)`: an HSL color stored as 16-bit components, or
`none` (an invalid `QColor`) when an argument is out of range. -/
def setHsl (h s l : Int) : Option (Nat × Nat × Nat) :=
  if h < -1 ∨ s < 0 ∨ 255 < s ∨ l < 0 ∨ 255 < l then none
  else some
    (if h = -1 then 65535 else ((h % 360) * 100).toNat,
     (s * 257).toNat,
     (l * 257).toNat)

/-- `QColor::rgb()` of an HSL-spec color (`QColor::toRgb`): achromatic colors
copy the 16-bit lightness into each channel; chromatic colors run the standard
HSL-to-RGB ramp on `qreal`s.  `rgb()` of an invalid color reads as black. -/
def hslStoredToRgb : Option (Nat × Nat × Nat) → Rgb
  | none => ⟨0, 0, 0⟩
  | some (h16, s16, l16) =>
    if s16 = 0 ∨ h16 = 65535 then
      let v := div257 l16
      ⟨v, v, v⟩
    else
      let h : ℚ := if h16 = 36000 then 0 else (h16 : ℚ) / 36000
      let s : ℚ := (s16 : ℚ) / 65535
      let l : ℚ := (l16 : ℚ) / 65535
      let temp2 : ℚ := if l < 1 / 2 then l * (1 + s) else l + s - l * s
      let temp1 : ℚ := 2 * l - temp2
      let comp : ℚ → Nat := fun t0 =>
        let tw : ℚ := if t0 < 0 then t0 + 1 else if t0 > 1 then t0 - 1 else t0
        let sixt : ℚ := tw * 6
        let v : ℚ :=
          if sixt < 1 then temp1 + (temp2 - temp1) * sixt
          else if tw * 2 < 1 then temp2
          else if tw * 3 < 2 then temp1 + (temp2 - temp1) * (2 / 3 - tw) * 6
          else temp1
        div257 (qRound (v * 65535)).toNat
      ⟨comp (h + 1 / 3), comp h, comp (h - 1 / 3)⟩

/-! ### The cluster data model -/

/-- Modelled from the spec: `struct ImageData::colorStat` is declared in
`imagecolors.h`, which is not among the sources at hand.  Per spec §3 a cluster
holds the member sample sequence (`colors`), the representative `centroid`, and
the population `ratio`, which is "computed once refinement completes and
meaningful only after that"; creation sites in the source never set it, so it
defaults to `0`. -/
structure colorStat where
  colors : List Rgb := []
  centroid : Rgb := ⟨0, 0, 0⟩
  ratio : ℚ := 0
deriving DecidableEq, Repr

instance : Inhabited colorStat := ⟨{}⟩

/-- `ImageColors::positionColor` (imagecolors.cpp:194-207): append the color to
the first cluster (in list order) whose centroid is within the threshold `t`,
otherwise append a fresh singleton cluster with the color as sole member and
centroid. -/
def positionColor (t : Int) (rgb : Rgb) : List colorStat → List colorStat
  | [] => [{ colors := [rgb], centroid := rgb }]
  | stat :: rest =>
    if squareDistance rgb stat.centroid < t then
      { stat with colors := stat.colors ++ [rgb] } :: rest
    else
      stat :: positionColor t rgb rest

/-- Run `positionColor` over a sample sequence (the sampling loop of
imagecolors.cpp:221-230 and the reassignment loop of lines 257-259). -/
def assignAll (t : Int) (samples : List Rgb) (clusters : List colorStat) : List colorStat :=
  samples.foldl (fun cs c => positionColor t c cs) clusters

/-- One centroid update of the refinement loop (imagecolors.cpp:237-255):
per-channel integer mean of the members becomes the centroid, `ratio` becomes
`members.count / total_samples` (`n` is the total sample count), and the member
list is reset to the single new centroid. -/
def updateStat (n : Nat) (stat : colorStat) : colorStat :=
  let c := stat.colors.length
  let r := (stat.colors.map Rgb.r).sum / c
  let g := (stat.colors.map Rgb.g).sum / c
  let b := (stat.colors.map Rgb.b).sum / c
  { colors := [⟨r, g, b⟩], centroid := ⟨r, g, b⟩, ratio := (c : ℚ) / (n : ℚ) }

/-- One full refinement iteration (imagecolors.cpp:236-260): update every
cluster, then reassign the entire sample sequence. -/
def refineStep (t : Int) (n : Nat) (samples : List Rgb) (cs : List colorStat) : List colorStat :=
  assignAll t samples (cs.map (updateStat n))

/-- Insert a cluster into a list sorted by strictly descending member count,
after all entries with at least as many members.  Folding this over the cluster
list models `std::sort` with comparator `a.colors.size() > b.colors.size()`
(imagecolors.cpp:262-264) as a stable sort — the sort the C++ standard library
performs on cluster lists of this size (libstdc++ insertion sort). -/
def insertByCount (s : colorStat) : List colorStat → List colorStat
  | [] => [s]
  | x :: xs =>
    if x.colors.length < s.colors.length then s :: x :: xs
    else x :: insertByCount s xs

/-- The sort step (imagecolors.cpp:262-264). -/
def sortClusters (cs : List colorStat) : List colorStat :=
  cs.foldl (fun acc s => insertByCount s acc) []

/-- Truncation of a `qreal` to `int` (C++ cast semantics: toward zero). -/
def qToInt (q : ℚ) : Int := if q < 0 then -⌊-q⌋ else ⌊q⌋

/-- `qRgb`'s masking of an int channel to 8 bits (`& 0xff`). -/
def qRgbMask (x : Int) : Nat := (x % 256).toNat

/-- Fold the source cluster into the destination (imagecolors.cpp:273-281):
the new centroid is the `ratio`-weighted mix of the two centroids with weight
`source.ratio / dest.ratio`, truncated per channel and masked by `qRgb`; the
destination's `ratio` accumulates the source's. -/
def mergeInto (src dest : colorStat) : colorStat :=
  let ratio : ℚ := src.ratio / dest.ratio
  let r := qRgbMask (qToInt (ratio * (src.centroid.r : ℚ) + (1 - ratio) * (dest.centroid.r : ℚ)))
  let g := qRgbMask (qToInt (ratio * (src.centroid.g : ℚ) + (1 - ratio) * (dest.centroid.g : ℚ)))
  let b := qRgbMask (qToInt (ratio * (src.centroid.b : ℚ) + (1 - ratio) * (dest.centroid.b : ℚ)))
  { dest with ratio := dest.ratio + src.ratio, centroid := ⟨r, g, b⟩ }

/-- Scan the clusters before the source (in list order) for the first one whose
centroid is within `t` of the source's centroid (imagecolors.cpp:271-284);
return the list with the source merged into it, or `none` if no match. -/
def findMergeDest (t : Int) (src : colorStat) : List colorStat → Option (List colorStat)
  | [] => none
  | d :: rest =>
    if squareDistance src.centroid d.centroid < t then
      some (mergeInto src d :: rest)
    else
      (findMergeDest t src rest).map (fun l => d :: l)

/-- The merge sweep (imagecolors.cpp:267-289): sources walk from the last
cluster toward the first (exclusive); a merged source is deleted, a surviving
source is left in place and never looked at again.  `fuel` bounds the
recursion; `mergePass` supplies enough for the full sweep. -/
def mergeGo (t : Int) : Nat → List colorStat → List colorStat
  | 0, cs => cs
  | fuel + 1, cs =>
    if cs.length ≤ 1 then cs
    else
      match findMergeDest t (cs.getLastD default) cs.dropLast with
      | some front' => mergeGo t fuel front'
      | none => mergeGo t fuel cs.dropLast ++ [cs.getLastD default]

/-- The merge pass of imagecolors.cpp:267-289 ("compress blocks that became
too similar"). -/
def mergePass (t : Int) (cs : List colorStat) : List colorStat :=
  mergeGo t cs.length cs

/-! ### Image sampling and the full pipeline -/

/-- A raster image: explicit size plus a per-pixel RGBA query. -/
structure QImageModel where
  width : Nat
  height : Nat
  pixel : Nat → Nat → Rgba

/-- Modelled Qt semantics: a `QImage` with no pixels is null. -/
def QImageModel.isNull (img : QImageModel) : Bool :=
  img.width == 0 || img.height == 0

/-- The sampling loop (imagecolors.cpp:221-230): scan by increasing `x`, then
increasing `y`, skipping pixels with alpha 0. -/
def collectSamples (img : QImageModel) : List Rgb :=
  ((List.range img.width).map fun x =>
    (List.range img.height).filterMap fun y =>
      let p := img.pixel x y
      if p.a = 0 then none else some p.rgb).flatten

/-- The cluster list after the initial assignment and `k` refinement
iterations (imagecolors.cpp:221-260). -/
def pipelineClusters (t : Int) (img : QImageModel) (k : Nat) : List colorStat :=
  (refineStep t (collectSamples img).length (collectSamples img))^[k]
    (assignAll t (collectSamples img) [])

/-- The cluster list reaching the sort (after all 5 refinement iterations). -/
def preSortClusters (t : Int) (img : QImageModel) : List colorStat :=
  pipelineClusters t img 5

/-- The cluster list after the sort step. -/
def sortedClusters (t : Int) (img : QImageModel) : List colorStat :=
  sortClusters (preSortClusters t img)

/-- The final cluster list, after the merge pass. -/
def mergedClusters (t : Int) (img : QImageModel) : List colorStat :=
  mergePass t (sortedClusters t img)

/-! ### Derived colors (imagecolors.cpp:291-359) -/

/-- `QColor::saturation()` where the color may be the invalid `QColor()`
(whose components read as 0). -/
def optSaturation : Option Rgb → Nat
  | none => 0
  | some c => hsvSaturation c

/-- `QColor::value()` where the color may be the invalid `QColor()`. -/
def optValue : Option Rgb → Nat
  | none => 0
  | some c => hsvValue c

/-- The selection score of imagecolors.cpp:348:
`saturation() + (158 - qAbs(158 - value()))`. -/
def satScore (oc : Option Rgb) : Int :=
  (optSaturation oc : Int) + (158 - ((158 - (optValue oc : Int)).natAbs : Int))

/-- One step of the `m_mostSaturated` accumulation (imagecolors.cpp:348-350):
replace the current best whenever a cluster color scores strictly higher. -/
def mostSatStep (acc : Option Rgb) (stat : colorStat) : Option Rgb :=
  if satScore acc < satScore (some stat.centroid) then some stat.centroid else acc

/-- The `m_mostSaturated` accumulation (imagecolors.cpp:291, 348-350): seeded
with the invalid `QColor()`. -/
def mostSaturatedFold (cs : List colorStat) : Option Rgb :=
  cs.foldl mostSatStep none

/-- The `m_closestToWhite` accumulation (imagecolors.cpp:294, 352-354):
seeded with `Qt::black`, replaced by any cluster color of larger `qGray`. -/
def closestToWhiteFold (cs : List colorStat) : Rgb :=
  cs.foldl (fun acc stat => if qGray acc < qGray stat.centroid then stat.centroid else acc)
    ⟨0, 0, 0⟩

/-- The `m_closestToBlack` accumulation (imagecolors.cpp:293, 355-357):
seeded with `Qt::white`, replaced by any cluster color of smaller `qGray`. -/
def closestToBlackFold (cs : List colorStat) : Rgb :=
  cs.foldl (fun acc stat => if qGray stat.centroid < qGray acc then stat.centroid else acc)
    ⟨255, 255, 255⟩

/-- The contrast color of one palette entry (imagecolors.cpp:306-338): invert
the cluster color, mirror its HSL lightness about 128, find the nearest
existing centroid to that pushed color; with fewer than 3 clusters use a flat
near-white/near-black keyed on the dominant color's `qGray` at 120, otherwise
use the nearest centroid, further pushing its lightness by ±20 when it is not
within `1.5 × t` of the pushed color. -/
def contrastFor (t : Int) (clusters : List colorStat) (dominant : Rgb) (stat : colorStat) : Rgb :=
  let color := stat.centroid
  let inverted : Rgb := ⟨255 - color.r, 255 - color.g, 255 - color.b⟩
  let pushed : Option (Nat × Nat × Nat) :=
    setHsl (hslHue inverted) (hslSaturation inverted)
      (128 + (128 - (lightness inverted : Int)))
  let pushedRgb : Rgb := hslStoredToRgb pushed
  let tempContrast : Option Rgb :=
    (clusters.foldl
      (fun (acc : Option Rgb × Int) s =>
        let d := squareDistance pushedRgb s.centroid
        if d < acc.2 then (some s.centroid, d) else acc)
      (none, 4681800)).1
  let tempRgb : Rgb := tempContrast.getD ⟨0, 0, 0⟩
  if clusters.length < 3 then
    if qGray dominant < 120 then ⟨230, 230, 230⟩ else ⟨20, 20, 20⟩
  else if (squareDistance pushedRgb tempRgb : ℚ) < (t : ℚ) * (3 / 2) then
    tempRgb
  else
    hslStoredToRgb (setHsl (hslHue tempRgb) (hslSaturation tempRgb)
      (if 128 < lightness tempRgb then (lightness tempRgb : Int) + 20
       else (lightness tempRgb : Int) - 20))

/-- One palette entry (`QVariantMap` with keys "color", "ratio",
"contrastColor", imagecolors.cpp:301-340). -/
structure PaletteEntry where
  color : Rgb
  ratio : ℚ
  contrastColor : Rgb
deriving DecidableEq, Repr

/-- `ImageData` (declared in `imagecolors.h`; fields as read through the
accessors in imagecolors.cpp:364-387).  Default-constructed `QColor` members
are modelled as `none`. -/
structure ImageData where
  m_samples : List Rgb := []
  m_clusters : List colorStat := []
  m_palette : List PaletteEntry := []
  m_dominant : Option Rgb := none
  m_mostSaturated : Option Rgb := none
  m_closestToBlack : Option Rgb := none
  m_closestToWhite : Option Rgb := none
  m_suggestedContrast : Option Rgb := none
deriving DecidableEq, Repr

/-- `ImageColors::generatePalette` (imagecolors.cpp:209-362). -/
def generatePalette (t : Int) (img : QImageModel) : ImageData :=
  if img.isNull || img.width == 0 then {}
  else if (collectSamples img).isEmpty then {}
  else
    let samples := collectSamples img
    let merged := mergedClusters t img
    let dominant := (merged.headD default).centroid
    { m_samples := samples
      m_clusters := merged
      m_palette := merged.map fun stat =>
        { color := stat.centroid
          ratio := stat.ratio
          contrastColor := contrastFor t merged dominant stat }
      m_dominant := some dominant
      m_mostSaturated := mostSaturatedFold merged
      m_closestToBlack := some (closestToBlackFold merged)
      m_closestToWhite := some (closestToWhiteFold merged)
      m_suggestedContrast := merged.head?.map fun stat => contrastFor t merged dominant stat }

/-- Representative positive value for the threshold `s_minimumSquareDistance`
(declared in `imagecolors.h`, not among the sources at hand; the spec fixes
only that it is a single tunable squared-distance constant). -/
def s_minimumSquareDistance : Int := 32000

/-! ### Concrete images used by the scenarios -/

/-- Scenario A's image: 2×2, all four pixels opaque (200,100,50). -/
def imgA : QImageModel := ⟨2, 2, fun _ _ => ⟨200, 100, 50, 255⟩⟩

/-- A 1×1 opaque pure-black image. -/
def imgBlack : QImageModel := ⟨1, 1, fun _ _ => ⟨0, 0, 0, 255⟩⟩

/-- A 1×1 fully transparent image. -/
def imgTransparent : QImageModel := ⟨1, 1, fun _ _ => ⟨120, 7, 9, 0⟩⟩

/-- A 6×1 grayscale image whose pipeline run ends with palette ratios out of
order: gray values 0, 15, 60, 90, 120, 165 along `x`. -/
def imgRamp : QImageModel :=
  ⟨6, 1, fun x _ => let v := [0, 15, 60, 90, 120, 165].getD x 0; ⟨v, v, v, 255⟩⟩

/-- A sorted three-cluster list on which the merge pass leaves two survivors
within the threshold of each other (the third cluster merges into the second,
dragging its centroid next to the first survivor's neighborhood). -/
def mergeExample : List colorStat :=
  [{ colors := [⟨0, 0, 0⟩], centroid := ⟨0, 0, 0⟩, ratio := 1 / 2 },
   { colors := [⟨0, 88, 0⟩], centroid := ⟨0, 88, 0⟩, ratio := 1 / 4 },
   { colors := [⟨0, 44, 100⟩], centroid := ⟨0, 44, 100⟩, ratio := 1 / 4 }]

/-- A two-cluster list whose centroids are separated beyond the representative
threshold in the direction the merge pass checks. -/
def separatedExample : List colorStat :=
  [{ colors := [⟨0, 0, 0⟩], centroid := ⟨0, 0, 0⟩, ratio := 1 / 2 },
   { colors := [⟨255, 255, 255⟩], centroid := ⟨255, 255, 255⟩, ratio := 1 / 2 }]

/-- Total member count across a cluster list. -/
def sumCounts (cs : List colorStat) : Nat :=
  (cs.map fun s => s.colors.length).sum

/-- Total `ratio` across a cluster list. -/
def sumRatios (cs : List colorStat) : ℚ :=
  (cs.map colorStat.ratio).sum

/-! ### Helper lemmas: assignment -/

theorem assignAll_nil (t : Int) (cs : List colorStat) : assignAll t [] cs = cs := rfl

theorem assignAll_cons (t : Int) (c : Rgb) (ss : List Rgb) (cs : List colorStat) :
    assignAll t (c :: ss) cs = assignAll t ss (positionColor t c cs) := rfl

theorem sumCounts_cons (s : colorStat) (cs : List colorStat) :
    sumCounts (s :: cs) = s.colors.length + sumCounts cs := by
  simp [sumCounts]

theorem sumCounts_positionColor (t : Int) (rgb : Rgb) (cs : List colorStat) :
    sumCounts (positionColor t rgb cs) = sumCounts cs + 1 := by
  induction cs with
  | nil => simp [positionColor, sumCounts]
  | cons s rest ih =>
    by_cases h : squareDistance rgb s.centroid < t
    · simp [positionColor, h, sumCounts_cons]
      omega
    · simp [positionColor, h, sumCounts_cons, ih]
      omega

theorem sumCounts_assignAll (t : Int) (ss : List Rgb) (cs : List colorStat) :
    sumCounts (assignAll t ss cs) = sumCounts cs + ss.length := by
  induction ss generalizing cs with
  | nil => simp [assignAll_nil]
  | cons c rest ih =>
    rw [assignAll_cons, ih, sumCounts_positionColor]
    simp only [List.length_cons]
    omega

theorem ratios_positionColor (t : Int) (rgb : Rgb) (cs : List colorStat) :
    (positionColor t rgb cs).map colorStat.ratio = cs.map colorStat.ratio ∨
      (positionColor t rgb cs).map colorStat.ratio = cs.map colorStat.ratio ++ [0] := by
  induction cs with
  | nil => right; simp [positionColor]
  | cons s rest ih =>
    by_cases h : squareDistance rgb s.centroid < t
    · left; simp [positionColor, h]
    · rcases ih with ih | ih
      · left; simp [positionColor, h, ih]
      · right; simp [positionColor, h, ih]

theorem ratios_assignAll (t : Int) (ss : List Rgb) (cs : List colorStat) :
    ∃ k, (assignAll t ss cs).map colorStat.ratio
      = cs.map colorStat.ratio ++ List.replicate k 0 := by
  induction ss generalizing cs with
  | nil => exact ⟨0, by simp [assignAll_nil]⟩
  | cons c rest ih =>
    rw [assignAll_cons]
    obtain ⟨k, hk⟩ := ih (positionColor t c cs)
    rcases ratios_positionColor t c cs with h | h
    · exact ⟨k, by rw [hk, h]⟩
    · refine ⟨k + 1, ?_⟩
      rw [hk, h, List.append_assoc]
      rfl

theorem members_positionColor (t : Int) (rgb : Rgb) (cs : List colorStat) :
    List.Perm ((positionColor t rgb cs).map colorStat.colors).flatten
      ((cs.map colorStat.colors).flatten ++ [rgb]) := by
  induction cs with
  | nil => simp [positionColor]
  | cons s rest ih =>
    by_cases h : squareDistance rgb s.centroid < t
    · simp only [positionColor, if_pos h, List.map_cons, List.flatten_cons]
      rw [List.append_assoc, List.append_assoc]
      exact List.Perm.append_left s.colors List.perm_append_comm
    · simp only [positionColor, if_neg h, List.map_cons, List.flatten_cons]
      rw [List.append_assoc]
      exact List.Perm.append_left s.colors ih

theorem members_assignAll (t : Int) (ss : List Rgb) (cs : List colorStat) :
    List.Perm ((assignAll t ss cs).map colorStat.colors).flatten
      ((cs.map colorStat.colors).flatten ++ ss) := by
  induction ss generalizing cs with
  | nil => simp [assignAll_nil]
  | cons c rest ih =>
    rw [assignAll_cons]
    refine (ih (positionColor t c cs)).trans ?_
    refine ((members_positionColor t c cs).append_right rest).trans ?_
    rw [List.append_assoc]
    exact List.Perm.refl _

theorem length_le_positionColor (t : Int) (rgb : Rgb) (cs : List colorStat) :
    cs.length ≤ (positionColor t rgb cs).length := by
  induction cs with
  | nil => simp [positionColor]
  | cons s rest ih =>
    by_cases h : squareDistance rgb s.centroid < t
    · simp [positionColor, h]
    · simpa [positionColor, h] using ih

theorem length_le_assignAll (t : Int) (ss : List Rgb) (cs : List colorStat) :
    cs.length ≤ (assignAll t ss cs).length := by
  induction ss generalizing cs with
  | nil => simp [assignAll_nil]
  | cons c rest ih =>
    rw [assignAll_cons]
    exact le_trans (length_le_positionColor t c cs) (ih (positionColor t c cs))

theorem one_le_length_assignAll (t : Int) (ss : List Rgb) (h : ss ≠ []) :
    1 ≤ (assignAll t ss []).length := by
  cases ss with
  | nil => cases h rfl
  | cons c rest =>
    rw [assignAll_cons]
    calc 1 = (positionColor t c []).length := by simp [positionColor]
      _ ≤ _ := length_le_assignAll t rest (positionColor t c [])

/-! ### Helper lemmas: the update step -/

theorem sumCounts_map_updateStat (n : Nat) (cs : List colorStat) :
    sumCounts (cs.map (updateStat n)) = cs.length := by
  induction cs with
  | nil => simp [sumCounts]
  | cons s rest ih =>
    simp [sumCounts_cons, updateStat, ih]
    omega

theorem sumRatios_map_updateStat (n : Nat) (cs : List colorStat) :
    sumRatios (cs.map (updateStat n)) = (sumCounts cs : ℚ) / (n : ℚ) := by
  induction cs with
  | nil => simp [sumRatios, sumCounts]
  | cons s rest ih =>
    simp only [List.map_cons, sumRatios, List.map, List.sum_cons, sumCounts_cons] at *
    rw [ih]
    rw [Nat.cast_add, add_div]
    rfl

theorem sumRatios_refineStep (t : Int) (n : Nat) (ss : List Rgb) (cs : List colorStat) :
    sumRatios (refineStep t n ss cs) = (sumCounts cs : ℚ) / (n : ℚ) := by
  obtain ⟨k, hk⟩ := ratios_assignAll t ss (cs.map (updateStat n))
  unfold refineStep
  unfold sumRatios
  rw [hk]
  simp [← sumRatios_map_updateStat n cs, sumRatios]

/-! ### Helper lemmas: the sort step -/

theorem insertByCount_perm (s : colorStat) (l : List colorStat) :
    List.Perm (insertByCount s l) (s :: l) := by
  induction l with
  | nil => exact List.Perm.refl _
  | cons x xs ih =>
    by_cases h : x.colors.length < s.colors.length
    · rw [insertByCount, if_pos h]
    · rw [insertByCount, if_neg h]
      exact (ih.cons x).trans (List.Perm.swap s x xs)

theorem foldl_insertByCount_perm (cs : List colorStat) :
    ∀ acc : List colorStat,
      List.Perm (cs.foldl (fun acc s => insertByCount s acc) acc) (acc ++ cs) := by
  induction cs with
  | nil => intro acc; simp
  | cons c rest ih =>
    intro acc
    rw [List.foldl_cons]
    refine (ih (insertByCount c acc)).trans ?_
    refine ((insertByCount_perm c acc).append_right rest).trans ?_
    exact List.perm_middle.symm

theorem sortClusters_perm (cs : List colorStat) :
    List.Perm (sortClusters cs) cs := by
  simpa [sortClusters] using foldl_insertByCount_perm cs []

theorem mem_insertByCount {a s : colorStat} {l : List colorStat}
    (h : a ∈ insertByCount s l) : a = s ∨ a ∈ l := by
  have := (insertByCount_perm s l).mem_iff.mp h
  simpa using this

theorem sorted_insertByCount (s : colorStat) (l : List colorStat)
    (h : l.Sorted fun a b => b.colors.length ≤ a.colors.length) :
    (insertByCount s l).Sorted fun a b => b.colors.length ≤ a.colors.length := by
  induction l with
  | nil => simp [insertByCount]
  | cons x xs ih =>
    rw [List.sorted_cons] at h
    obtain ⟨hx, hxs⟩ := h
    by_cases hcmp : x.colors.length < s.colors.length
    · rw [insertByCount, if_pos hcmp, List.sorted_cons]
      constructor
      · intro b hb
        rcases List.mem_cons.mp hb with rfl | hb
        · exact le_of_lt hcmp
        · exact le_trans (hx b hb) (le_of_lt hcmp)
      · rw [List.sorted_cons]
        exact ⟨hx, hxs⟩
    · rw [insertByCount, if_neg hcmp, List.sorted_cons]
      refine ⟨?_, ih hxs⟩
      intro b hb
      rcases mem_insertByCount hb with rfl | hb
      · omega
      · exact hx b hb

theorem sortClusters_sorted (cs : List colorStat) :
    (sortClusters cs).Sorted fun a b => b.colors.length ≤ a.colors.length := by
  unfold sortClusters
  suffices h : ∀ acc : List colorStat,
      (acc.Sorted fun a b => b.colors.length ≤ a.colors.length) →
      ((cs.foldl (fun acc s => insertByCount s acc) acc).Sorted
        fun a b => b.colors.length ≤ a.colors.length) by
    exact h [] (by simp)
  induction cs with
  | nil => intro acc hacc; simpa using hacc
  | cons c rest ih =>
    intro acc hacc
    rw [List.foldl_cons]
    exact ih (insertByCount c acc) (sorted_insertByCount c acc hacc)

/-! ### Helper lemmas: the merge pass -/

theorem sumRatios_cons (s : colorStat) (cs : List colorStat) :
    sumRatios (s :: cs) = s.ratio + sumRatios cs := by
  simp [sumRatios]

theorem sumRatios_append (l1 l2 : List colorStat) :
    sumRatios (l1 ++ l2) = sumRatios l1 + sumRatios l2 := by
  simp [sumRatios]

theorem sumRatios_findMergeDest (t : Int) (src : colorStat) :
    ∀ cs cs' : List colorStat, findMergeDest t src cs = some cs' →
      sumRatios cs' = sumRatios cs + src.ratio := by
  intro cs
  induction cs with
  | nil => intro cs' h; simp [findMergeDest] at h
  | cons d rest ih =>
    intro cs' h
    by_cases hd : squareDistance src.centroid d.centroid < t
    · rw [findMergeDest, if_pos hd, Option.some_inj] at h
      subst h
      rw [sumRatios_cons, sumRatios_cons]
      have : (mergeInto src d).ratio = d.ratio + src.ratio := rfl
      rw [this]
      ring
    · rw [findMergeDest, if_neg hd, Option.map_eq_some'] at h
      obtain ⟨l, hl, rfl⟩ := h
      rw [sumRatios_cons, sumRatios_cons, ih l hl]
      ring

theorem dropLast_append_getLastD (cs : List colorStat) (h : cs ≠ []) :
    cs.dropLast ++ [cs.getLastD default] = cs := by
  have h1 : cs.getLastD default = cs.getLast h := by
    rw [List.getLastD_eq_getLast?, List.getLast?_eq_getLast cs h]
    rfl
  rw [h1]
  exact List.dropLast_append_getLast h

theorem sumRatios_mergeGo (t : Int) :
    ∀ (fuel : Nat) (cs : List colorStat), sumRatios (mergeGo t fuel cs) = sumRatios cs := by
  intro fuel
  induction fuel with
  | zero => intro cs; rfl
  | succ fuel ih =>
    intro cs
    rw [mergeGo]
    by_cases hlen : cs.length ≤ 1
    · rw [if_pos hlen]
    · rw [if_neg hlen]
      have hne : cs ≠ [] := by
        intro hnil
        rw [hnil] at hlen
        simp at hlen
      have hsplit := dropLast_append_getLastD cs hne
      cases hfind : findMergeDest t (cs.getLastD default) cs.dropLast with
      | none =>
        simp only
        rw [sumRatios_append, ih]
        conv_rhs => rw [← hsplit]
        rw [sumRatios_append]
      | some front' =>
        simp only
        rw [ih, sumRatios_findMergeDest t _ _ _ hfind]
        conv_rhs => rw [← hsplit]
        rw [sumRatios_append, sumRatios_cons, sumRatios]
        simp
        rfl

theorem sumRatios_mergePass (t : Int) (cs : List colorStat) :
    sumRatios (mergePass t cs) = sumRatios cs :=
  sumRatios_mergeGo t cs.length cs

theorem findMergeDest_eq_none (t : Int) (src : colorStat) :
    ∀ cs : List colorStat,
      (∀ d ∈ cs, ¬squareDistance src.centroid d.centroid < t) →
      findMergeDest t src cs = none := by
  intro cs
  induction cs with
  | nil => intro _; rfl
  | cons d rest ih =>
    intro h
    rw [findMergeDest, if_neg (h d (by simp)), ih fun d' hd' => h d' (by simp [hd'])]
    rfl

theorem mergeGo_of_pairwise (t : Int) :
    ∀ (fuel : Nat) (cs : List colorStat),
      (cs.Pairwise fun d s => ¬squareDistance s.centroid d.centroid < t) →
      mergeGo t fuel cs = cs := by
  intro fuel
  induction fuel with
  | zero => intro cs _; rfl
  | succ fuel ih =>
    intro cs h
    rw [mergeGo]
    by_cases hlen : cs.length ≤ 1
    · rw [if_pos hlen]
    · rw [if_neg hlen]
      have hne : cs ≠ [] := by
        intro hnil
        rw [hnil] at hlen
        simp at hlen
      have hsplit := dropLast_append_getLastD cs hne
      have hpw : (cs.dropLast ++ [cs.getLastD default]).Pairwise
          fun d s => ¬squareDistance s.centroid d.centroid < t := by
        rw [hsplit]
        exact h
      rw [List.pairwise_append] at hpw
      obtain ⟨h1, _, h3⟩ := hpw
      have hnone : findMergeDest t (cs.getLastD default) cs.dropLast = none :=
        findMergeDest_eq_none t _ _ fun d hd => h3 d hd _ (by simp)
      simp only [hnone]
      rw [ih _ h1, hsplit]

theorem mergePass_of_pairwise (t : Int) (cs : List colorStat)
    (h : cs.Pairwise fun d s => ¬squareDistance s.centroid d.centroid < t) :
    mergePass t cs = cs :=
  mergeGo_of_pairwise t cs.length cs h

/-! ### Helper lemmas: the most-saturated accumulation -/

theorem mostSatStep_spec :
    ∀ (cs : List colorStat) (a : Option Rgb),
      (cs.foldl mostSatStep a = a ∨ ∃ s ∈ cs, cs.foldl mostSatStep a = some s.centroid) ∧
        satScore a ≤ satScore (cs.foldl mostSatStep a) ∧
        ∀ s ∈ cs, satScore (some s.centroid) ≤ satScore (cs.foldl mostSatStep a) := by
  intro cs
  induction cs with
  | nil =>
    intro a
    exact ⟨Or.inl rfl, le_refl _, by simp⟩
  | cons x rest ih =>
    intro a
    rw [List.foldl_cons]
    by_cases hx : satScore a < satScore (some x.centroid)
    · have hstep : mostSatStep a x = some x.centroid := by
        rw [mostSatStep, if_pos hx]
      obtain ⟨ih1, ih2, ih3⟩ := ih (mostSatStep a x)
      rw [hstep] at ih1 ih2 ih3 ⊢
      refine ⟨?_, le_trans (le_of_lt hx) ih2, ?_⟩
      · rcases ih1 with h | ⟨s, hs, hres⟩
        · exact Or.inr ⟨x, by simp, h⟩
        · exact Or.inr ⟨s, by simp [hs], hres⟩
      · intro s hs
        rcases List.mem_cons.mp hs with rfl | hs
        · exact ih2
        · exact ih3 s hs
    · have hstep : mostSatStep a x = a := by
        rw [mostSatStep, if_neg hx]
      obtain ⟨ih1, ih2, ih3⟩ := ih (mostSatStep a x)
      rw [hstep] at ih1 ih2 ih3 ⊢
      refine ⟨?_, ih2, ?_⟩
      · rcases ih1 with h | ⟨s, hs, hres⟩
        · exact Or.inl h
        · exact Or.inr ⟨s, by simp [hs], hres⟩
      · intro s hs
        rcases List.mem_cons.mp hs with rfl | hs
        · exact le_trans (le_of_not_lt hx) ih2
        · exact ih3 s hs

/-! ### Helper lemmas: the pipeline guards -/

theorem collectSamples_of_isNull (img : QImageModel) (h : img.isNull = true) :
    collectSamples img = [] := by
  unfold QImageModel.isNull at h
  rw [Bool.or_eq_true, beq_iff_eq, beq_iff_eq] at h
  unfold collectSamples
  rcases h with h | h
  · rw [h]
    rfl
  · rw [h]
    simp

theorem collectSamples_of_transparent (img : QImageModel)
    (h : ∀ x < img.width, ∀ y < img.height, (img.pixel x y).a = 0) :
    collectSamples img = [] := by
  unfold collectSamples
  rw [List.flatten_eq_nil_iff]
  intro l hl
  rw [List.mem_map] at hl
  obtain ⟨x, hx, rfl⟩ := hl
  rw [List.mem_range] at hx
  rw [List.filterMap_eq_nil_iff]
  intro y hy
  rw [List.mem_range] at hy
  simp only [h x hx y hy, if_pos]

theorem pipelineClusters_of_nil (t : Int) (img : QImageModel)
    (h : collectSamples img = []) (k : Nat) : pipelineClusters t img k = [] := by
  unfold pipelineClusters
  rw [h]
  have hfix : refineStep t ([] : List Rgb).length [] ([] : List colorStat) = [] := rfl
  calc (refineStep t ([] : List Rgb).length [])^[k] (assignAll t [] []) =
      (refineStep t ([] : List Rgb).length [])^[k] [] := rfl
    _ = [] := Function.iterate_fixed hfix k

theorem mergedClusters_of_nil (t : Int) (img : QImageModel)
    (h : collectSamples img = []) : mergedClusters t img = [] := by
  unfold mergedClusters sortedClusters preSortClusters
  rw [pipelineClusters_of_nil t img h]
  rfl

theorem generatePalette_empty (t : Int) (img : QImageModel)
    (h : collectSamples img = []) : generatePalette t img = {} := by
  unfold generatePalette
  by_cases h1 : (img.isNull || img.width == 0) = true
  · rw [if_pos h1]
  · rw [Bool.not_eq_true] at h1
    rw [h1]
    have h2 : (collectSamples img).isEmpty = true := by
      rw [h]
      rfl
    simp only [Bool.false_eq_true, if_false, h2, if_true]

theorem generatePalette_main (t : Int) (img : QImageModel)
    (h2 : collectSamples img ≠ []) :
    generatePalette t img =
      { m_samples := collectSamples img
        m_clusters := mergedClusters t img
        m_palette := (mergedClusters t img).map fun stat =>
          { color := stat.centroid
            ratio := stat.ratio
            contrastColor := contrastFor t (mergedClusters t img)
              ((mergedClusters t img).headD default).centroid stat }
        m_dominant := some ((mergedClusters t img).headD default).centroid
        m_mostSaturated := mostSaturatedFold (mergedClusters t img)
        m_closestToBlack := some (closestToBlackFold (mergedClusters t img))
        m_closestToWhite := some (closestToWhiteFold (mergedClusters t img))
        m_suggestedContrast := (mergedClusters t img).head?.map fun stat =>
          contrastFor t (mergedClusters t img)
            ((mergedClusters t img).headD default).centroid stat } := by
  have h1 : (img.isNull || img.width == 0) = false := by
    rw [Bool.or_eq_false_iff]
    constructor
    · rw [Bool.eq_false_iff]
      intro hn
      exact h2 (collectSamples_of_isNull img hn)
    · rw [beq_eq_false_iff_ne]
      intro hw
      refine h2 (collectSamples_of_isNull img ?_)
      unfold QImageModel.isNull
      rw [Bool.or_eq_true, beq_iff_eq]
      exact Or.inl hw
  have h2' : (collectSamples img).isEmpty = false := by
    rw [List.isEmpty_eq_false_iff_exists_mem]
    cases hs : collectSamples img with
    | nil => exact absurd hs h2
    | cons a l => exact ⟨a, by simp⟩
  unfold generatePalette
  rw [h1, h2']
  rfl

theorem generatePalette_mostSaturated_eq (t : Int) (img : QImageModel) :
    (generatePalette t img).m_mostSaturated = mostSaturatedFold (mergedClusters t img) := by
  by_cases h : collectSamples img = []
  · rw [generatePalette_empty t img h, mergedClusters_of_nil t img h]
    rfl
  · rw [generatePalette_main t img h]

theorem generatePalette_clusters_eq (t : Int) (img : QImageModel)
    (h : collectSamples img ≠ []) :
    (generatePalette t img).m_clusters = mergedClusters t img := by
  rw [generatePalette_main t img h]

theorem generatePalette_palette_ratios (t : Int) (img : QImageModel) :
    (generatePalette t img).m_palette.map PaletteEntry.ratio
      = (mergedClusters t img).map colorStat.ratio := by
  by_cases h : collectSamples img = []
  · rw [generatePalette_empty t img h, mergedClusters_of_nil t img h]
    rfl
  · rw [generatePalette_main t img h]
    simp only [List.map_map]
    rfl

/-! ### Helper lemmas: the ratio-sum bookkeeping across the pipeline -/

theorem pipelineClusters_succ (t : Int) (img : QImageModel) (k : Nat) :
    pipelineClusters t img (k + 1)
      = refineStep t (collectSamples img).length (collectSamples img)
          (pipelineClusters t img k) := by
  unfold pipelineClusters
  rw [Function.iterate_succ_apply']

theorem sumRatios_mergedClusters (t : Int) (img : QImageModel) :
    sumRatios (mergedClusters t img)
      = (((pipelineClusters t img 3).length : ℚ) + ((collectSamples img).length : ℚ)) /
          ((collectSamples img).length : ℚ) := by
  unfold mergedClusters
  rw [sumRatios_mergePass]
  have hperm : sumRatios (sortedClusters t img) = sumRatios (preSortClusters t img) := by
    unfold sumRatios
    exact ((sortClusters_perm (preSortClusters t img)).map colorStat.ratio).sum_eq
  rw [hperm]
  have h5 : preSortClusters t img
      = refineStep t (collectSamples img).length (collectSamples img)
          (pipelineClusters t img 4) := pipelineClusters_succ t img 4
  rw [h5, sumRatios_refineStep]
  have h4 : sumCounts (pipelineClusters t img 4)
      = (pipelineClusters t img 3).length + (collectSamples img).length := by
    rw [pipelineClusters_succ t img 3, refineStep, sumCounts_assignAll,
      sumCounts_map_updateStat]
  rw [h4]
  push_cast
  ring_nf

theorem one_le_length_pipelineClusters (t : Int) (img : QImageModel)
    (h : collectSamples img ≠ []) (k : Nat) :
    1 ≤ (pipelineClusters t img k).length := by
  induction k with
  | zero => exact one_le_length_assignAll t (collectSamples img) h
  | succ k ih =>
    rw [pipelineClusters_succ]
    calc 1 ≤ (pipelineClusters t img k).length := ih
      _ = ((pipelineClusters t img k).map
            (updateStat (collectSamples img).length)).length := by
          rw [List.length_map]
      _ ≤ _ := length_le_assignAll t _ _

/-! ### Symbolic evaluation of scenario A for every positive threshold -/

theorem squareDistance_self (c : Rgb) : squareDistance c c = 0 := by
  simp [squareDistance]

theorem positionColor_same (t : Int) (h : 0 < t) (c : Rgb) (l : List Rgb) (ρ : ℚ) :
    positionColor t c [{ colors := l, centroid := c, ratio := ρ }]
      = [{ colors := l ++ [c], centroid := c, ratio := ρ }] := by
  rw [positionColor, if_pos]
  show squareDistance c c < t
  rw [squareDistance_self]
  exact h

theorem assignAll_same (t : Int) (h : 0 < t) (c : Rgb) :
    ∀ ss : List Rgb, (∀ x ∈ ss, x = c) → ∀ (l : List Rgb) (ρ : ℚ),
      assignAll t ss [{ colors := l, centroid := c, ratio := ρ }]
        = [{ colors := l ++ ss, centroid := c, ratio := ρ }] := by
  intro ss
  induction ss with
  | nil => intro _ l ρ; simp [assignAll_nil]
  | cons x rest ih =>
    intro hx l ρ
    have hxc : x = c := hx x (by simp)
    subst hxc
    rw [assignAll_cons, positionColor_same t h, ih (fun y hy => hx y (by simp [hy]))]
    simp

section ScenarioA

attribute [local semireducible] Rat.add Rat.mul Rat.inv Rat.sub

theorem collectSamples_imgA :
    collectSamples imgA
      = [⟨200, 100, 50⟩, ⟨200, 100, 50⟩, ⟨200, 100, 50⟩, ⟨200, 100, 50⟩] := rfl

theorem updateStat_imgA_first (ρ : ℚ) :
    updateStat 4
      { colors := [⟨200, 100, 50⟩, ⟨200, 100, 50⟩, ⟨200, 100, 50⟩, ⟨200, 100, 50⟩],
        centroid := ⟨200, 100, 50⟩, ratio := ρ }
      = { colors := [⟨200, 100, 50⟩], centroid := ⟨200, 100, 50⟩, ratio := 1 } := by
  simp only [updateStat]
  norm_num

theorem updateStat_imgA_later (ρ : ℚ) :
    updateStat 4
      { colors := [⟨200, 100, 50⟩, ⟨200, 100, 50⟩, ⟨200, 100, 50⟩, ⟨200, 100, 50⟩,
          ⟨200, 100, 50⟩],
        centroid := ⟨200, 100, 50⟩, ratio := ρ }
      = { colors := [⟨200, 100, 50⟩], centroid := ⟨200, 100, 50⟩, ratio := 5 / 4 } := by
  simp only [updateStat]
  norm_num

theorem refineStep_imgA_first (t : Int) (h : 0 < t) (ρ : ℚ) :
    refineStep t 4 [⟨200, 100, 50⟩, ⟨200, 100, 50⟩, ⟨200, 100, 50⟩, ⟨200, 100, 50⟩]
      [{ colors := [⟨200, 100, 50⟩, ⟨200, 100, 50⟩, ⟨200, 100, 50⟩, ⟨200, 100, 50⟩],
         centroid := ⟨200, 100, 50⟩, ratio := ρ }]
      = [{ colors := [⟨200, 100, 50⟩, ⟨200, 100, 50⟩, ⟨200, 100, 50⟩, ⟨200, 100, 50⟩,
            ⟨200, 100, 50⟩],
           centroid := ⟨200, 100, 50⟩, ratio := 1 }] := by
  rw [refineStep, List.map_cons, List.map_nil, updateStat_imgA_first,
    assignAll_same t h _ _ (fun x hx => by simpa using hx)]
  rfl

theorem refineStep_imgA_later (t : Int) (h : 0 < t) (ρ : ℚ) :
    refineStep t 4 [⟨200, 100, 50⟩, ⟨200, 100, 50⟩, ⟨200, 100, 50⟩, ⟨200, 100, 50⟩]
      [{ colors := [⟨200, 100, 50⟩, ⟨200, 100, 50⟩, ⟨200, 100, 50⟩, ⟨200, 100, 50⟩,
          ⟨200, 100, 50⟩],
         centroid := ⟨200, 100, 50⟩, ratio := ρ }]
      = [{ colors := [⟨200, 100, 50⟩, ⟨200, 100, 50⟩, ⟨200, 100, 50⟩, ⟨200, 100, 50⟩,
            ⟨200, 100, 50⟩],
           centroid := ⟨200, 100, 50⟩, ratio := 5 / 4 }] := by
  rw [refineStep, List.map_cons, List.map_nil, updateStat_imgA_later,
    assignAll_same t h _ _ (fun x hx => by simpa using hx)]
  rfl

theorem mergedClusters_imgA (t : Int) (h : 0 < t) :
    mergedClusters t imgA
      = [{ colors := [⟨200, 100, 50⟩, ⟨200, 100, 50⟩, ⟨200, 100, 50⟩, ⟨200, 100, 50⟩,
            ⟨200, 100, 50⟩],
           centroid := ⟨200, 100, 50⟩, ratio := 5 / 4 }] := by
  have hs0 : assignAll t (collectSamples imgA) []
      = [{ colors := [⟨200, 100, 50⟩, ⟨200, 100, 50⟩, ⟨200, 100, 50⟩, ⟨200, 100, 50⟩],
           centroid := ⟨200, 100, 50⟩, ratio := 0 }] := by
    rw [collectSamples_imgA, assignAll_cons]
    have h1 : positionColor t ⟨200, 100, 50⟩ []
        = [{ colors := [⟨200, 100, 50⟩], centroid := ⟨200, 100, 50⟩, ratio := 0 }] := rfl
    rw [h1, assignAll_same t h _ _ (fun x hx => by simpa using hx)]
    rfl
  have hN : (collectSamples imgA).length = 4 := rfl
  unfold mergedClusters sortedClusters preSortClusters pipelineClusters
  rw [hN, hs0, collectSamples_imgA]
  rw [show (5 : Nat) = 4 + 1 from rfl, Function.iterate_succ_apply]
  rw [show (refineStep t 4 [⟨200, 100, 50⟩, ⟨200, 100, 50⟩, ⟨200, 100, 50⟩, ⟨200, 100, 50⟩])
      [{ colors := [⟨200, 100, 50⟩, ⟨200, 100, 50⟩, ⟨200, 100, 50⟩, ⟨200, 100, 50⟩],
         centroid := ⟨200, 100, 50⟩, ratio := 0 }]
      = [{ colors := [⟨200, 100, 50⟩, ⟨200, 100, 50⟩, ⟨200, 100, 50⟩, ⟨200, 100, 50⟩,
            ⟨200, 100, 50⟩],
           centroid := ⟨200, 100, 50⟩, ratio := 1 }] from refineStep_imgA_first t h 0]
  rw [show (4 : Nat) = 3 + 1 from rfl, Function.iterate_succ_apply,
    refineStep_imgA_later t h]
  rw [show (3 : Nat) = 2 + 1 from rfl, Function.iterate_succ_apply,
    refineStep_imgA_later t h]
  rw [show (2 : Nat) = 1 + 1 from rfl, Function.iterate_succ_apply,
    refineStep_imgA_later t h]
  rw [show (1 : Nat) = 0 + 1 from rfl, Function.iterate_succ_apply,
    refineStep_imgA_later t h, Function.iterate_zero_apply]
  rfl

end ScenarioA

theorem generatePalette_palette_field (t : Int) (img : QImageModel)
    (h : collectSamples img ≠ []) :
    (generatePalette t img).m_palette
      = (mergedClusters t img).map fun stat =>
          { color := stat.centroid
            ratio := stat.ratio
            contrastColor := contrastFor t (mergedClusters t img)
              ((mergedClusters t img).headD default).centroid stat } := by
  rw [generatePalette_main t img h]

/-! ### The claims -/

section Claims

attribute [local semireducible] Rat.add Rat.mul Rat.inv Rat.sub

/-- C1: for the 2×2 image of four opaque (200,100,50) pixels the palette has
exactly one entry and `dominant` is (200,100,50), but the entry's ratio is
5/4, not the claimed 1.0: the refinement loop reseeds the cluster with a
synthetic centroid member, so the final member count is 5 over 4 samples. -/
theorem C1_counterexample :
    (generatePalette s_minimumSquareDistance imgA).m_palette.map PaletteEntry.ratio
        = [5 / 4] ∧
      ((5 : ℚ) / 4 ≠ 1) := by
  constructor
  · decide
  · decide

/-- C1 (amended): for every positive threshold, extraction on the 2×2 uniform
(200,100,50) image yields exactly one palette entry, of color (200,100,50) and
ratio 5/4 (the synthetic seed member inflates the count to 5 of 4 samples),
and `dominant` = (200,100,50). -/
theorem C1_amended (t : Int) (h : 0 < t) :
    (generatePalette t imgA).m_palette.map (fun e => (e.color, e.ratio))
        = [(⟨200, 100, 50⟩, 5 / 4)] ∧
      (generatePalette t imgA).m_dominant = some ⟨200, 100, 50⟩ := by
  have hs : collectSamples imgA ≠ [] := by
    rw [collectSamples_imgA]
    simp
  rw [generatePalette_main t imgA hs, mergedClusters_imgA t h]
  constructor
  · simp
  · rfl

/-- C1 (witness): the amended statement instantiated at the representative
threshold. -/
theorem C1_witness :
    (0 : Int) < s_minimumSquareDistance ∧
      ((generatePalette s_minimumSquareDistance imgA).m_palette.map
          fun e => (e.color, e.ratio))
        = [(⟨200, 100, 50⟩, 5 / 4)] ∧
      (generatePalette s_minimumSquareDistance imgA).m_dominant = some ⟨200, 100, 50⟩ :=
  ⟨by decide, C1_amended s_minimumSquareDistance (by decide)⟩

/-- C2: during the first refinement pass on the 2×2 uniform image the member
counts sum to 5 while there are only 4 eligible samples: each refinement pass
reseeds every cluster with one synthetic centroid member, so summed counts
exceed the sample total and the members do not partition the sample set. -/
theorem C2_counterexample :
    sumCounts (pipelineClusters s_minimumSquareDistance imgA 1) = 5 ∧
      (collectSamples imgA).length = 4 ∧
      sumCounts (pipelineClusters s_minimumSquareDistance imgA 1)
        ≠ (collectSamples imgA).length := by
  refine ⟨by decide, by decide, by decide⟩

/-- C2 (amended): the initial pass is an exact partition — member counts sum
to the sample count and the member sequences cover the samples without
duplication — while each refinement reassignment pass sums to the sample count
plus the number of clusters present at the start of the pass (one synthetic
centroid seed per cluster). -/
theorem C2_amended :
    (∀ (t : Int) (ss : List Rgb), sumCounts (assignAll t ss []) = ss.length) ∧
      (∀ (t : Int) (ss : List Rgb),
        List.Perm ((assignAll t ss []).map colorStat.colors).flatten ss) ∧
      ∀ (t : Int) (n : Nat) (ss : List Rgb) (cs : List colorStat),
        sumCounts (refineStep t n ss cs) = cs.length + ss.length := by
  refine ⟨?_, ?_, ?_⟩
  · intro t ss
    rw [sumCounts_assignAll]
    simp [sumCounts]
  · intro t ss
    simpa using members_assignAll t ss []
  · intro t n ss cs
    rw [refineStep, sumCounts_assignAll, sumCounts_map_updateStat]

/-- C3: on the 2×2 uniform image the single surviving cluster's ratio sums to
5/4, which differs from 1.0 by far more than the claimed 1e-6 tolerance. -/
theorem C3_counterexample :
    sumRatios (generatePalette s_minimumSquareDistance imgA).m_clusters = 5 / 4 ∧
      ¬|sumRatios (generatePalette s_minimumSquareDistance imgA).m_clusters - 1|
          ≤ 1 / 1000000 := by
  refine ⟨by decide, by decide⟩

/-- C3 (amended): for any image with at least one eligible sample, the ratios
of the surviving clusters after the merge pass sum to `(K + N) / N`, where `N`
is the eligible sample count and `K ≥ 1` is the number of clusters present
after the fourth assignment pass; in particular the sum strictly exceeds 1
(each cluster's synthetic seed member inflates the counts the ratios are
computed from). -/
theorem C3_amended (t : Int) (img : QImageModel) (h : collectSamples img ≠ []) :
    (generatePalette t img).m_clusters = mergedClusters t img ∧
      sumRatios (mergedClusters t img)
        = (((pipelineClusters t img 3).length : ℚ) + ((collectSamples img).length : ℚ)) /
            ((collectSamples img).length : ℚ) ∧
      1 ≤ (pipelineClusters t img 3).length ∧
      1 < sumRatios (mergedClusters t img) := by
  refine ⟨generatePalette_clusters_eq t img h, sumRatios_mergedClusters t img,
    one_le_length_pipelineClusters t img h 3, ?_⟩
  rw [sumRatios_mergedClusters t img]
  have hN : 0 < (collectSamples img).length := List.length_pos.mpr h
  have hK : 1 ≤ (pipelineClusters t img 3).length := one_le_length_pipelineClusters t img h 3
  have hNq : (0 : ℚ) < ((collectSamples img).length : ℚ) := by exact_mod_cast hN
  have hKq : (0 : ℚ) < ((pipelineClusters t img 3).length : ℚ) := by exact_mod_cast hK
  rw [add_div, div_self (ne_of_gt hNq)]
  have hpos : (0 : ℚ) < ((pipelineClusters t img 3).length : ℚ) /
      ((collectSamples img).length : ℚ) := div_pos hKq hNq
  linarith

/-- C3 (witness): the amended statement instantiated on the 2×2 uniform image,
where the sum is (1 + 4)/4 = 5/4 > 1. -/
theorem C3_witness :
    (generatePalette s_minimumSquareDistance imgA).m_clusters
        = mergedClusters s_minimumSquareDistance imgA ∧
      sumRatios (mergedClusters s_minimumSquareDistance imgA)
        = (((pipelineClusters s_minimumSquareDistance imgA 3).length : ℚ)
              + ((collectSamples imgA).length : ℚ)) /
            ((collectSamples imgA).length : ℚ) ∧
      1 ≤ (pipelineClusters s_minimumSquareDistance imgA 3).length ∧
      1 < sumRatios (mergedClusters s_minimumSquareDistance imgA) :=
  C3_amended s_minimumSquareDistance imgA (by decide)

/-- C4: on a 1×1 black image (one final cluster, dominant gray value 0 < 120)
the palette entry's contrast color is the near-white (230,230,230), not the
near-black (20,20,20) the claim predicts for grayscale below 120 — the claim
has the two flat colors swapped. -/
theorem C4_counterexample :
    (generatePalette s_minimumSquareDistance imgBlack).m_palette.map
        PaletteEntry.contrastColor = [⟨230, 230, 230⟩] ∧
      qGray ⟨0, 0, 0⟩ < 120 ∧
      (⟨230, 230, 230⟩ : Rgb) ≠ ⟨20, 20, 20⟩ := by
  refine ⟨by decide, by decide, by decide⟩

/-- C4 (amended): when fewer than 3 clusters survive, every palette entry's
contrast color is flat near-white (230,230,230) if the dominant color's
grayscale value is below 120, and flat near-black (20,20,20) otherwise. -/
theorem C4_amended (t : Int) (img : QImageModel)
    (h : (mergedClusters t img).length < 3) :
    ∀ e ∈ (generatePalette t img).m_palette,
      e.contrastColor
        = if qGray ((mergedClusters t img).headD default).centroid < 120
            then ⟨230, 230, 230⟩ else ⟨20, 20, 20⟩ := by
  intro e he
  by_cases hs : collectSamples img = []
  · rw [generatePalette_empty t img hs] at he
    simp at he
  · rw [generatePalette_palette_field t img hs, List.mem_map] at he
    obtain ⟨stat, hstat, rfl⟩ := he
    show contrastFor t (mergedClusters t img)
        ((mergedClusters t img).headD default).centroid stat = _
    simp only [contrastFor]
    rw [if_pos h]

/-- C4 (witness): the amended statement applied to the 1×1 black image's
single palette entry. -/
theorem C4_witness :
    ({ color := ⟨0, 0, 0⟩, ratio := 2, contrastColor := ⟨230, 230, 230⟩ }
        : PaletteEntry).contrastColor
      = if qGray ((mergedClusters s_minimumSquareDistance imgBlack).headD
            default).centroid < 120
          then ⟨230, 230, 230⟩ else ⟨20, 20, 20⟩ :=
  C4_amended s_minimumSquareDistance imgBlack (by decide) _ (by decide)

/-- C5: the merge pass is not idempotent and does not leave survivors pairwise
beyond the threshold: on `mergeExample` the third cluster survives its sweep,
the second merges into the first and drags its centroid to (0,44,0), leaving
the two survivors within the threshold, so a second merge pass merges again. -/
theorem C5_counterexample :
    (mergePass s_minimumSquareDistance mergeExample).map colorStat.centroid
        = [⟨0, 44, 0⟩, ⟨0, 44, 100⟩] ∧
      squareDistance ⟨0, 44, 100⟩ ⟨0, 44, 0⟩ < s_minimumSquareDistance ∧
      mergePass s_minimumSquareDistance (mergePass s_minimumSquareDistance mergeExample)
        ≠ mergePass s_minimumSquareDistance mergeExample := by
  refine ⟨by decide, by decide, by decide⟩

/-- C5 (amended): a cluster list whose centroids are already pairwise beyond
the threshold (in the source-to-destination direction the sweep checks) is a
fixed point of the merge pass; the pass is idempotent only on such lists. -/
theorem C5_amended (t : Int) (cs : List colorStat)
    (h : cs.Pairwise fun d s => ¬squareDistance s.centroid d.centroid < t) :
    mergePass t cs = cs :=
  mergePass_of_pairwise t cs h

/-- C5 (witness): the amended statement on a concrete separated pair. -/
theorem C5_witness :
    mergePass s_minimumSquareDistance separatedExample = separatedExample :=
  C5_amended s_minimumSquareDistance separatedExample (by decide)

/-- C6: palette entries are not non-increasing in ratio: on the 6×1 gray ramp
image the two surviving entries have ratios 2/3 then 5/6 (the merge pass adds
the absorbed cluster's ratio to a later survivor). -/
theorem C6_counterexample :
    (generatePalette s_minimumSquareDistance imgRamp).m_palette.map PaletteEntry.ratio
        = [2 / 3, 5 / 6] ∧
      ((2 : ℚ) / 3 < 5 / 6) := by
  refine ⟨by decide, by decide⟩

/-- C6 (amended): after refinement the sort step does order the clusters by
non-increasing member count (a permutation of the refined cluster list, stable
in this embedding), but the palette ratios need not inherit that order. -/
theorem C6_amended (t : Int) (img : QImageModel) :
    ((sortedClusters t img).Sorted fun a b => b.colors.length ≤ a.colors.length) ∧
      List.Perm (sortedClusters t img) (preSortClusters t img) :=
  ⟨sortClusters_sorted _, sortClusters_perm _⟩

/-- C7: a null image, a zero-width image, or an image whose pixels all have
alpha 0 yields the empty `ImageData` (empty palette and samples, all derived
colors at their default invalid value), as a defined outcome. -/
theorem C7_empty (t : Int) (img : QImageModel)
    (h : img.isNull = true ∨ img.width = 0 ∨
      ∀ x < img.width, ∀ y < img.height, (img.pixel x y).a = 0) :
    generatePalette t img = {} := by
  rcases h with h | h | h
  · exact generatePalette_empty t img (collectSamples_of_isNull img h)
  · refine generatePalette_empty t img (collectSamples_of_isNull img ?_)
    unfold QImageModel.isNull
    rw [Bool.or_eq_true, beq_iff_eq]
    exact Or.inl h
  · exact generatePalette_empty t img (collectSamples_of_transparent img h)

/-- C7 (witness): the fully transparent 1×1 image yields the empty result. -/
theorem C7_witness :
    generatePalette s_minimumSquareDistance imgTransparent = {} :=
  C7_empty s_minimumSquareDistance imgTransparent (Or.inr (Or.inr fun _ _ _ _ => rfl))

/-- C8: the first cluster examined does not always replace the initial
`mostSaturated` value: on a 1×1 black image the single candidate (0,0,0)
scores 0, which is not strictly greater than the invalid seed's score 0, so
`mostSaturated` remains the invalid color rather than the first candidate. -/
theorem C8_counterexample :
    (generatePalette s_minimumSquareDistance imgBlack).m_clusters.map colorStat.centroid
        = [⟨0, 0, 0⟩] ∧
      (generatePalette s_minimumSquareDistance imgBlack).m_mostSaturated = none ∧
      (none : Option Rgb) ≠ some ⟨0, 0, 0⟩ := by
  refine ⟨by decide, by decide, by decide⟩

/-- C8 (amended): whenever some final cluster has a strictly positive score
`saturation + (158 - |158 - value|)`, `mostSaturated` is a final cluster
centroid of maximal score; a candidate only replaces the accumulator when its
score strictly exceeds the accumulator's, and the invalid seed scores 0. -/
theorem C8_amended (t : Int) (img : QImageModel)
    (h : ∃ s ∈ mergedClusters t img, 0 < satScore (some s.centroid)) :
    ∃ c : Rgb, (generatePalette t img).m_mostSaturated = some c ∧
      c ∈ (mergedClusters t img).map colorStat.centroid ∧
      ∀ s ∈ mergedClusters t img, satScore (some s.centroid) ≤ satScore (some c) := by
  obtain ⟨s0, hs0, hpos⟩ := h
  obtain ⟨h1, _, h3⟩ := mostSatStep_spec (mergedClusters t img) none
  rw [generatePalette_mostSaturated_eq]
  unfold mostSaturatedFold
  rcases h1 with h1 | ⟨s, hs, hres⟩
  · exfalso
    have hc := h3 s0 hs0
    rw [h1] at hc
    have hz : satScore none = 0 := rfl
    omega
  · refine ⟨s.centroid, hres, ?_, ?_⟩
    · rw [List.mem_map]
      exact ⟨s, hs, rfl⟩
    · intro s' hs'
      have := h3 s' hs'
      rwa [hres] at this

/-- C8 (witness): the amended statement on the 2×2 uniform (200,100,50)
image, whose single cluster scores positively. -/
theorem C8_witness :
    ∃ c : Rgb, (generatePalette s_minimumSquareDistance imgA).m_mostSaturated = some c ∧
      c ∈ (mergedClusters s_minimumSquareDistance imgA).map colorStat.centroid ∧
      ∀ s ∈ mergedClusters s_minimumSquareDistance imgA,
        satScore (some s.centroid) ≤ satScore (some c) :=
  C8_amended s_minimumSquareDistance imgA (by decide)

/-- C9: `squareDistance` is not symmetric: the `(3,4,2)` weighting fires only
when the first color's red channel exceeds the second's by at least 128 (the
comparison is on the signed difference), so whenever the red difference is not
positive the `(2,4,3)` branch is taken, and the pair (255,0,0)/(0,0,0)
witnesses `squareDistance a b ≠ squareDistance b a`. -/
theorem C9_asymmetry :
    squareDistance ⟨255, 0, 0⟩ ⟨0, 0, 0⟩ ≠ squareDistance ⟨0, 0, 0⟩ ⟨255, 0, 0⟩ ∧
      (∀ a b : Rgb, (a.r : Int) - (b.r : Int) < 128 →
        squareDistance a b
          = 2 * ((a.r : Int) - (b.r : Int)) ^ 2 + 4 * ((a.g : Int) - (b.g : Int)) ^ 2
            + 3 * ((a.b : Int) - (b.b : Int)) ^ 2) ∧
      ∀ a b : Rgb, 128 ≤ (a.r : Int) - (b.r : Int) →
        squareDistance a b
          = 3 * ((a.r : Int) - (b.r : Int)) ^ 2 + 4 * ((a.g : Int) - (b.g : Int)) ^ 2
            + 2 * ((a.b : Int) - (b.b : Int)) ^ 2 := by
  refine ⟨by decide, ?_, ?_⟩
  · intro a b h
    simp only [squareDistance]
    rw [if_pos h]
  · intro a b h
    simp only [squareDistance]
    rw [if_neg (not_lt.mpr h)]

/-- C9 (witness): the two branch equations instantiated at (0,0,0)/(255,0,0)
and (255,0,0)/(0,0,0). -/
theorem C9_witness :
    squareDistance ⟨0, 0, 0⟩ ⟨255, 0, 0⟩
        = 2 * ((0 : Int) - 255) ^ 2 + 4 * ((0 : Int) - 0) ^ 2 + 3 * ((0 : Int) - 0) ^ 2 ∧
      squareDistance ⟨255, 0, 0⟩ ⟨0, 0, 0⟩
        = 3 * ((255 : Int) - 0) ^ 2 + 4 * ((0 : Int) - 0) ^ 2 + 2 * ((0 : Int) - 0) ^ 2 :=
  ⟨C9_asymmetry.2.1 ⟨0, 0, 0⟩ ⟨255, 0, 0⟩ (by decide),
    C9_asymmetry.2.2 ⟨255, 0, 0⟩ ⟨0, 0, 0⟩ (by decide)⟩

/-- C10: `ratio` is assigned only by the centroid-update step and the merge
pass, never at cluster creation: every cluster first created during the fifth
refinement reassignment reaches the sort with `ratio` still at its default 0
(the tail of the ratio list beyond the clusters present at the fifth update is
identically 0), and the palette outputs the merged clusters' `ratio` fields
verbatim. -/
theorem C10_ratio_default :
    (∀ (t : Int) (img : QImageModel),
      (preSortClusters t img).map colorStat.ratio
        = ((pipelineClusters t img 4).map
              (updateStat (collectSamples img).length)).map colorStat.ratio
            ++ List.replicate
                ((preSortClusters t img).length - (pipelineClusters t img 4).length) 0) ∧
      ∀ (t : Int) (img : QImageModel),
        (generatePalette t img).m_palette.map PaletteEntry.ratio
          = (mergedClusters t img).map colorStat.ratio := by
  constructor
  · intro t img
    have hpre : preSortClusters t img
        = assignAll t (collectSamples img)
            ((pipelineClusters t img 4).map (updateStat (collectSamples img).length)) :=
      pipelineClusters_succ t img 4
    obtain ⟨k, hk⟩ := ratios_assignAll t (collectSamples img)
      ((pipelineClusters t img 4).map (updateStat (collectSamples img).length))
    have hlen : (preSortClusters t img).length = (pipelineClusters t img 4).length + k := by
      have hl := congrArg List.length hk
      rw [List.length_map, List.length_append, List.length_map, List.length_map,
        List.length_replicate] at hl
      rw [hpre, hl]
    have hk2 : (preSortClusters t img).length - (pipelineClusters t img 4).length = k := by
      omega
    rw [hk2, hpre, hk]
  · intro t img
    exact generatePalette_palette_ratios t img

end Claims
